import Mathlib

/-!
Shallow embedding of the antenna field-update engine of
`src/antenna-simulation-web/src/antenna_simulator.py` (class `AntennaSimulator`),
together with the grid generator shared with `antenna_sim.py`.

Numeric values are modelled over a linear ordered field `α`; the numpy
transcendental primitives (`np.sin`, `np.cos`, `np.arctan2`, the square root
inside `np.linalg.norm`, and the constant `np.pi`) are collected in a
parameter structure `NumOps`, so that theorems can be instantiated with the
genuine real functions while witnesses evaluate the control structure over `ℚ`
with computable stand-ins.  Python exceptions (the `KeyError` raised by the
`freq_multipliers` dict lookup) are modelled with `Except`.
-/

/-- The numpy transcendental primitives used by the engine. -/
structure NumOps (α : Type) where
  sin : α → α
  cos : α → α
  atan2 : α → α → α
  sqrt : α → α
  pi : α

/-- The Euclidean norm of a 3-vector (`np.linalg.norm`). -/
def norm3 {α : Type} [LinearOrderedField α] (ops : NumOps α) (p : α × α × α) : α :=
  ops.sqrt (p.1 ^ 2 + p.2.1 ^ 2 + p.2.2 ^ 2)

/-- A Python attribute value, as stored in the simulator object's attribute
dictionary.  `external` stands for the pyvista rendering handles
(`field_data`, `antenna_mesh`) whose displayed content is regenerated from the
modelled state on every step and which are therefore kept outside the model. -/
inductive PyValue (α : Type) where
  | num : α → PyValue α
  | str : String → PyValue α
  | bool : Bool → PyValue α
  | nat : Nat → PyValue α
  | strList : List String → PyValue α
  | numDict : List (String × α) → PyValue α
  | pointList : List (α × α × α) → PyValue α
  | optNumList : Option (List α) → PyValue α
  | external : PyValue α
deriving DecidableEq

/-- The engine state: the data attributes assigned in
`AntennaSimulator.__init__`.  `intensities` models the `"intensity"` array the
engine stores into `field_data` (it is not itself a Python attribute of the
simulator object — see `parseAttr`). -/
@[ext]
structure SimState (α : Type) where
  antenna_length : α
  antenna_radius : α
  current_amplitude : α
  min_current : α
  max_current : α
  frequency : α
  freq_unit : String
  antenna_type : String
  freq_multipliers : List (String × α)
  antenna_types : List String
  time_step : α
  t : α
  field_points : List (α × α × α)
  vectors : List (α × α × α)
  intensities : List α
  audio_envelope : Option (List α)
  audio_envelope_idx : Nat
  audio_envelope_len : Nat
  audio_envelope_repeat : Bool
deriving DecidableEq

/-- The `freq_multipliers` dict from `__init__`:
`{'Hz': 1, 'kHz': 1e3, 'MHz': 1e6, 'GHz': 1e9}`. -/
def initMultipliers (α : Type) [LinearOrderedField α] : List (String × α) :=
  [("Hz", 1), ("kHz", 1000), ("MHz", 1000000), ("GHz", 1000000000)]

/-- Python exceptions the modelled code can raise. -/
inductive PyError where
  | keyError : String → PyError
deriving DecidableEq

/-- Boolean success test for an `Except` result. -/
def isOkE {ε β : Type} : Except ε β → Bool
  | .ok _ => true
  | .error _ => false

section Engine

variable {α : Type} [LinearOrderedField α]

/-- Model of `AntennaSimulator.get_actual_frequency`:
`self.frequency * self.freq_multipliers[self.freq_unit]`.  An unrecognized
unit makes the dict lookup raise `KeyError`. -/
def get_actual_frequency (s : SimState α) : Except PyError α :=
  match s.freq_multipliers.lookup s.freq_unit with
  | some m => .ok (s.frequency * m)
  | none => .error (.keyError s.freq_unit)

/-- Model of `AntennaSimulator.get_current_amplitude`.  In envelope mode the numpy
indexing `self.audio_envelope[idx]` is modelled totally with `List.getD`
(in every reachable state the index is in bounds).  The returned state
carries the advanced cursor; the synthetic branch leaves the state unchanged
but can raise via `get_actual_frequency`. -/
def get_current_amplitude (ops : NumOps α) (s : SimState α) :
    Except PyError (α × SimState α) :=
  if s.audio_envelope.isSome ∧ 0 < s.audio_envelope_len then
    let env := s.audio_envelope.getD []
    let idx := min s.audio_envelope_idx (s.audio_envelope_len - 1)
    let amp := env.getD idx 0
    let current := s.min_current + (s.max_current - s.min_current) * amp
    let idx1 := s.audio_envelope_idx + 1
    let idx2 :=
      if s.audio_envelope_len ≤ idx1 then
        if s.audio_envelope_repeat then 0 else s.audio_envelope_len - 1
      else idx1
    .ok (current, { s with audio_envelope_idx := idx2 })
  else
    match get_actual_frequency s with
    | .error e => .error e
    | .ok af =>
        .ok (s.min_current + (s.max_current - s.min_current) *
              |ops.sin (2 * ops.pi * af * s.t)|, s)

end Engine

/-! ### The Python attribute dictionary

`update_simulation(**params)` assigns `setattr(self, key, value)` for every
key with `hasattr(self, key)`.  The data attributes established in `__init__`
are enumerated by `Attr`; `parseAttr` is the name test `hasattr` performs on
them.  (`hasattr` would also accept method names; methods are outside a state
model and the engine never passes them.)  Assignment is modelled keeping the
old value on a type mismatch; the UI collaborator always supplies values of
the attribute's type. -/

inductive Attr where
  | antennaLength | antennaRadius | currentAmplitude | minCurrent | maxCurrent
  | frequency | freqUnit | antennaType | freqMultipliers | antennaTypes
  | timeStep | tAttr | fieldPoints | vectors | fieldData | antennaMesh
  | audioEnvelope | audioEnvelopeIdx | audioEnvelopeLen | audioEnvelopeRepeat
deriving DecidableEq

/-- The Python name of each attribute. -/
def attrName : Attr → String
  | .antennaLength => "antenna_length"
  | .antennaRadius => "antenna_radius"
  | .currentAmplitude => "current_amplitude"
  | .minCurrent => "min_current"
  | .maxCurrent => "max_current"
  | .frequency => "frequency"
  | .freqUnit => "freq_unit"
  | .antennaType => "antenna_type"
  | .freqMultipliers => "freq_multipliers"
  | .antennaTypes => "antenna_types"
  | .timeStep => "time_step"
  | .tAttr => "t"
  | .fieldPoints => "field_points"
  | .vectors => "vectors"
  | .fieldData => "field_data"
  | .antennaMesh => "antenna_mesh"
  | .audioEnvelope => "audio_envelope"
  | .audioEnvelopeIdx => "audio_envelope_idx"
  | .audioEnvelopeLen => "audio_envelope_len"
  | .audioEnvelopeRepeat => "audio_envelope_repeat"

/-- All data attributes, in `__init__` order. -/
def attrList : List Attr :=
  [.antennaLength, .antennaRadius, .currentAmplitude, .minCurrent,
   .maxCurrent, .frequency, .freqUnit, .antennaType, .freqMultipliers,
   .antennaTypes, .timeStep, .tAttr, .fieldPoints, .vectors, .fieldData,
   .antennaMesh, .audioEnvelope, .audioEnvelopeIdx, .audioEnvelopeLen,
   .audioEnvelopeRepeat]

/-- The `hasattr(self, k)` test restricted to the data attributes: which attribute, if
any, the string `k` names. -/
def parseAttr (k : String) : Option Attr :=
  attrList.find? (fun a => attrName a = k)

section PyDict

variable {α : Type}

/-- Read a `PyValue` as a number, keeping `d` on a type mismatch. -/
def PyValue.asNum (v : PyValue α) (d : α) : α := match v with | .num x => x | _ => d

/-- Read a `PyValue` as a string, keeping `d` on a type mismatch. -/
def PyValue.asStr (v : PyValue α) (d : String) : String :=
  match v with | .str x => x | _ => d

/-- Read a `PyValue` as a boolean, keeping `d` on a type mismatch. -/
def PyValue.asBool (v : PyValue α) (d : Bool) : Bool :=
  match v with | .bool x => x | _ => d

/-- Read a `PyValue` as an integer, keeping `d` on a type mismatch. -/
def PyValue.asNat (v : PyValue α) (d : Nat) : Nat :=
  match v with | .nat x => x | _ => d

/-- Read a `PyValue` as a string list, keeping `d` on a type mismatch. -/
def PyValue.asStrList (v : PyValue α) (d : List String) : List String :=
  match v with | .strList x => x | _ => d

/-- Read a `PyValue` as a string-keyed dict, keeping `d` on a type mismatch. -/
def PyValue.asNumDict (v : PyValue α) (d : List (String × α)) : List (String × α) :=
  match v with | .numDict x => x | _ => d

/-- Read a `PyValue` as a point list, keeping `d` on a type mismatch. -/
def PyValue.asPointList (v : PyValue α) (d : List (α × α × α)) : List (α × α × α) :=
  match v with | .pointList x => x | _ => d

/-- Read a `PyValue` as an optional sample list, keeping `d` on a mismatch. -/
def PyValue.asOptNumList (v : PyValue α) (d : Option (List α)) : Option (List α) :=
  match v with | .optNumList x => x | _ => d

/-- Python `getattr`: the current value of an attribute. -/
def getF (s : SimState α) : Attr → PyValue α
  | .antennaLength => .num s.antenna_length
  | .antennaRadius => .num s.antenna_radius
  | .currentAmplitude => .num s.current_amplitude
  | .minCurrent => .num s.min_current
  | .maxCurrent => .num s.max_current
  | .frequency => .num s.frequency
  | .freqUnit => .str s.freq_unit
  | .antennaType => .str s.antenna_type
  | .freqMultipliers => .numDict s.freq_multipliers
  | .antennaTypes => .strList s.antenna_types
  | .timeStep => .num s.time_step
  | .tAttr => .num s.t
  | .fieldPoints => .pointList s.field_points
  | .vectors => .pointList s.vectors
  | .fieldData => .external
  | .antennaMesh => .external
  | .audioEnvelope => .optNumList s.audio_envelope
  | .audioEnvelopeIdx => .nat s.audio_envelope_idx
  | .audioEnvelopeLen => .nat s.audio_envelope_len
  | .audioEnvelopeRepeat => .bool s.audio_envelope_repeat

/-- Python `setattr`: assign one attribute.  The rendering handles `field_data` and
`antenna_mesh` are outside the modelled state (their modelled content —
`vectors` and `intensities` — is regenerated from the state every step), so
assigning them leaves the modelled state unchanged. -/
def setF (s : SimState α) : Attr → PyValue α → SimState α
  | .antennaLength, v => { s with antenna_length := v.asNum s.antenna_length }
  | .antennaRadius, v => { s with antenna_radius := v.asNum s.antenna_radius }
  | .currentAmplitude, v => { s with current_amplitude := v.asNum s.current_amplitude }
  | .minCurrent, v => { s with min_current := v.asNum s.min_current }
  | .maxCurrent, v => { s with max_current := v.asNum s.max_current }
  | .frequency, v => { s with frequency := v.asNum s.frequency }
  | .freqUnit, v => { s with freq_unit := v.asStr s.freq_unit }
  | .antennaType, v => { s with antenna_type := v.asStr s.antenna_type }
  | .freqMultipliers, v => { s with freq_multipliers := v.asNumDict s.freq_multipliers }
  | .antennaTypes, v => { s with antenna_types := v.asStrList s.antenna_types }
  | .timeStep, v => { s with time_step := v.asNum s.time_step }
  | .tAttr, v => { s with t := v.asNum s.t }
  | .fieldPoints, v => { s with field_points := v.asPointList s.field_points }
  | .vectors, v => { s with vectors := v.asPointList s.vectors }
  | .fieldData, _ => s
  | .antennaMesh, _ => s
  | .audioEnvelope, v => { s with audio_envelope := v.asOptNumList s.audio_envelope }
  | .audioEnvelopeIdx, v => { s with audio_envelope_idx := v.asNat s.audio_envelope_idx }
  | .audioEnvelopeLen, v => { s with audio_envelope_len := v.asNat s.audio_envelope_len }
  | .audioEnvelopeRepeat, v =>
      { s with audio_envelope_repeat := v.asBool s.audio_envelope_repeat }

/-- One iteration of the parameter loop of `update_simulation`:
`if hasattr(self, key): setattr(self, key, value)`. -/
def setAttr (s : SimState α) (k : String) (v : PyValue α) : SimState α :=
  match parseAttr k with
  | some a => setF s a v
  | none => s

/-- Python `getattr` by name, `none` when the attribute does not exist. -/
def getAttr (s : SimState α) (k : String) : Option (PyValue α) :=
  (parseAttr k).map (getF s)

/-- The whole parameter loop of `update_simulation`, in the (insertion)
order of the keyword dict. -/
def applyParams (s : SimState α) (ps : List (String × PyValue α)) : SimState α :=
  ps.foldl (fun s kv => setAttr s kv.1 kv.2) s

end PyDict

section Engine2

variable {α : Type} [LinearOrderedField α]

/-- The per-point field vector of `update_field_vectors`, for amplitude
`current`, actual frequency `af` and time `t0`:
`phase = 2π·(af·t0 − d/2)`, components
`(current·sin(phase)·x/d, current·sin(phase)·y/d,
current·cos(phase)·cos(atan2(d, z)))` with `d = ‖p‖`. -/
def fieldVector (ops : NumOps α) (current af t0 : α) (p : α × α × α) :
    α × α × α :=
  let d := norm3 ops p
  let phase := 2 * ops.pi * (af * t0 - d / 2)
  (current * ops.sin phase * p.1 / d,
   current * ops.sin phase * p.2.1 / d,
   current * ops.cos phase * ops.cos (ops.atan2 d p.2.2))

/-- Model of `AntennaSimulator.update_field_vectors`: distances, phase, amplitude, the
three vector components, and the intensity array, exactly in source order.
The `KeyError` of an unrecognized `freq_unit` is raised by
`get_actual_frequency` before any state is written. -/
def update_field_vectors (ops : NumOps α) (s : SimState α) :
    Except PyError (SimState α) :=
  match get_actual_frequency s with
  | .error e => .error e
  | .ok af =>
    match get_current_amplitude ops s with
    | .error e => .error e
    | .ok (current, s1) =>
      let vecs := s.field_points.map (fieldVector ops current af s.t)
      .ok { s1 with vectors := vecs, intensities := vecs.map (norm3 ops) }

/-- Model of `AntennaSimulator.update_simulation(**params)`: apply the recognized
keyword parameters, advance `self.t` by `self.time_step`, then recompute the
field.  The mesh rebuild (`update_antenna_mesh`) touches only the external
`antenna_mesh` handle and is not part of the modelled state.  The function
returns the state the Python object is left in (the time advance happens
before the field recomputation, hence also before any `KeyError`), paired
with the produced field frame or the raised error. -/
def update_simulation (ops : NumOps α) (s : SimState α)
    (ps : List (String × PyValue α)) :
    SimState α × Except PyError (List (α × α × α) × List α) :=
  match update_field_vectors ops { applyParams s ps with
      t := (applyParams s ps).t + (applyParams s ps).time_step } with
  | .ok s3 => (s3, .ok (s3.vectors, s3.intensities))
  | .error e => ({ applyParams s ps with
      t := (applyParams s ps).t + (applyParams s ps).time_step }, .error e)

/-- Model of `np.linspace a b n`: `n` evenly spaced samples from `a` to `b` inclusive. -/
def linspace (a b : α) (n : Nat) : List α :=
  if n = 1 then [a]
  else (List.range n).map (fun (i : Nat) => a + (i : α) * (b - a) / ((n : α) - 1))

/-- Model of `generate_field_points` (identical in `antenna_simulator.py` and
`antenna_sim.py`), parametrized by the three coordinate sequences: radius
outermost, polar angle middle, azimuth innermost, spherical to Cartesian. -/
def generate_field_points (ops : NumOps α) (rs ts ps : List α) :
    List (α × α × α) :=
  rs.flatMap (fun ri =>
    ts.flatMap (fun ti =>
      ps.map (fun pi =>
        (ri * ops.sin ti * ops.cos pi,
         ri * ops.sin ti * ops.sin pi,
         ri * ops.cos ti))))

/-- Model of `np.min` over a nonempty sample array (the `[]` case is unreachable:
numpy raises on an empty array and `load_audio_envelope` is modelled only on
the nonempty branch). -/
def listMin : List α → α
  | [] => 0
  | x :: xs => xs.foldl min x

/-- Model of `np.max` over a nonempty sample array. -/
def listMax : List α → α
  | [] => 0
  | x :: xs => xs.foldl max x

/-- The normalization step of `load_audio_envelope`:
`(envelope - envelope.min()) / (np.ptp(envelope) + 1e-8)` where
`np.ptp = max - min`. -/
def normalizeEnv (l : List α) : List α :=
  l.map (fun x => (x - listMin l) / (listMax l - listMin l + 1 / 100000000))

/-- Model of `AntennaSimulator.load_audio_envelope`, taken from the point where the
external librosa stage has produced the raw onset-strength envelope: normalize
it, then overwrite `audio_envelope`, reset `audio_envelope_idx` to `0` and set
`audio_envelope_len`.  On an empty envelope `envelope.min()` raises
(`none`) before any attribute is written. -/
def load_audio_envelope (s : SimState α) (envRaw : List α) :
    Option (SimState α) :=
  match envRaw with
  | [] => none
  | _ =>
    let e := normalizeEnv envRaw
    some { s with audio_envelope := some e, audio_envelope_idx := 0,
                  audio_envelope_len := e.length }

/-- Iterated amplitude reads: the list of amplitudes produced by `n`
successive `get_current_amplitude` calls, with the final state. -/
def ampCalls (ops : NumOps α) : Nat → SimState α → List α × SimState α
  | 0, s => ([], s)
  | n + 1, s =>
    match get_current_amplitude ops s with
    | .ok (a, s1) =>
      let r := ampCalls ops n s1
      (a :: r.1, r.2)
    | .error _ => ([], s)

/-- The state after one `update_simulation` call with no keyword parameters
(the fixed-cadence tick). -/
def stepState (ops : NumOps α) (s : SimState α) : SimState α :=
  (update_simulation ops s []).1

/-- The state after `n` parameterless `update_simulation` calls. -/
def stepN (ops : NumOps α) (n : Nat) (s : SimState α) : SimState α :=
  match n with
  | 0 => s
  | n + 1 => stepN ops n (stepState ops s)

end Engine2

/-- Modelled from the spec: the `Active` state of the amplitude-source state
machine, "`Active` (cursor < length−1, or repeat=true)".  The spec alone
defines the `Active`/`Exhausted` names; the code has no such flag. -/
def specActive {α : Type} (s : SimState α) : Prop :=
  s.audio_envelope_idx < s.audio_envelope_len - 1 ∨ s.audio_envelope_repeat = true

instance {α : Type} (s : SimState α) : Decidable (specActive s) := by
  unfold specActive; infer_instance


/-! ### Shared helper lemmas -/

section Helpers

variable {α : Type} [LinearOrderedField α]

theorem amp_state_char (ops : NumOps α) (s s1 : SimState α) (a : α)
    (h : get_current_amplitude ops s = .ok (a, s1)) :
    s1 = { s with audio_envelope_idx := s1.audio_envelope_idx } := by
  unfold get_current_amplitude at h
  split at h
  · simp only [Except.ok.injEq, Prod.mk.injEq] at h
    obtain ⟨-, h2⟩ := h
    subst h2
    rfl
  · cases hf : get_actual_frequency s with
    | error e => rw [hf] at h; exact absurd h (by simp)
    | ok af =>
      rw [hf] at h
      simp only [Except.ok.injEq, Prod.mk.injEq] at h
      obtain ⟨-, h2⟩ := h
      subst h2
      rfl

theorem amp_ok_of_lookup (ops : NumOps α) (s : SimState α) (m : α)
    (hm : s.freq_multipliers.lookup s.freq_unit = some m) :
    isOkE (get_current_amplitude ops s) = true := by
  unfold get_current_amplitude
  split
  · rfl
  · have hf : get_actual_frequency s = .ok (s.frequency * m) := by
      unfold get_actual_frequency; rw [hm]
    rw [hf]
    rfl

theorem ufv_ok_of_lookup (ops : NumOps α) (s : SimState α) (m : α)
    (hm : s.freq_multipliers.lookup s.freq_unit = some m) :
    isOkE (update_field_vectors ops s) = true := by
  unfold update_field_vectors
  have hf : get_actual_frequency s = .ok (s.frequency * m) := by
    unfold get_actual_frequency; rw [hm]
  rw [hf]
  cases hc : get_current_amplitude ops s with
  | error e =>
    have := amp_ok_of_lookup ops s m hm
    rw [hc] at this
    exact absurd this (by simp [isOkE])
  | ok pr => rfl

theorem ufv_state_char (ops : NumOps α) (s s' : SimState α)
    (h : update_field_vectors ops s = .ok s') :
    s' = { s with audio_envelope_idx := s'.audio_envelope_idx,
                  vectors := s'.vectors, intensities := s'.intensities } := by
  unfold update_field_vectors at h
  cases hf : get_actual_frequency s with
  | error e => rw [hf] at h; exact absurd h (by simp)
  | ok af =>
    rw [hf] at h
    cases hc : get_current_amplitude ops s with
    | error e => rw [hc] at h; exact absurd h (by simp)
    | ok pr =>
      rw [hc] at h
      have h1 := amp_state_char ops s pr.2 pr.1 (by rw [hc])
      simp only [Except.ok.injEq] at h
      subst h
      rw [h1]

end Helpers

/-- Decidable equality on `Except`, for evaluating concrete engine results. -/
instance instDecEqExcept {e b : Type} [DecidableEq e] [DecidableEq b] :
    DecidableEq (Except e b)
  | .error x, .error y =>
    if h : x = y then isTrue (congrArg Except.error h)
    else isFalse (fun hh => h (Except.error.inj hh))
  | .error _, .ok _ => isFalse (fun hh => Except.noConfusion hh)
  | .ok _, .error _ => isFalse (fun hh => Except.noConfusion hh)
  | .ok x, .ok y =>
    if h : x = y then isTrue (congrArg Except.ok h)
    else isFalse (fun hh => h (Except.ok.inj hh))

/-! ### Witness fixtures -/

/-- Computable stand-ins for the numpy primitives, used to evaluate the
control structure of the engine over `ℚ` at concrete inputs. -/
def qOps : NumOps ℚ := ⟨fun x => x, fun x => x, fun a _ => a, fun x => x, 3⟩

/-- A concrete engine state over `ℚ` mirroring `__init__` (with a one-point
grid standing in for the trigonometric 4500-point grid). -/
def wState : SimState ℚ where
  antenna_length := 1
  antenna_radius := 1 / 50
  current_amplitude := 1
  min_current := 1 / 10
  max_current := 3
  frequency := 1
  freq_unit := "Hz"
  antenna_type := "Dipole"
  freq_multipliers := initMultipliers ℚ
  antenna_types := ["Dipole", "Monopole", "Loop", "Yagi"]
  time_step := 1 / 20
  t := 0
  field_points := [(1, 0, 0)]
  vectors := [(0, 0, 0)]
  intensities := [0]
  audio_envelope := none
  audio_envelope_idx := 0
  audio_envelope_len := 0
  audio_envelope_repeat := true

/-! ### C1 -/

/-- C1: for every grid point `p` with `d = ‖p‖`, the field update computes
`phase = 2π·(actual_frequency·elapsed_time − d/2)`,
`E.x = amplitude·sin(phase)·p.x/d`, `E.y = amplitude·sin(phase)·p.y/d`,
`E.z = amplitude·cos(phase)·cos(atan2(d, p.z))` (the non-standard z-component
preserved as written — see `fieldVector`), and `intensity = ‖E‖`, where
`actual_frequency` = `frequency` times the unit multiplier of `freq_unit`
(1, 1e3, 1e6, 1e9 for Hz, kHz, MHz, GHz). -/
theorem field_update_formula {α : Type} [LinearOrderedField α] (ops : NumOps α)
    (s s1 : SimState α) (mult current : α)
    (hm : s.freq_multipliers.lookup s.freq_unit = some mult)
    (hc : get_current_amplitude ops s = .ok (current, s1)) :
    get_actual_frequency s = .ok (s.frequency * mult) ∧
    update_field_vectors ops s = .ok { s1 with
      vectors :=
        s.field_points.map (fieldVector ops current (s.frequency * mult) s.t),
      intensities := s.field_points.map
        (fun p =>
          norm3 ops (fieldVector ops current (s.frequency * mult) s.t p)) } ∧
    (initMultipliers α).lookup "Hz" = some 1 ∧
    (initMultipliers α).lookup "kHz" = some 1000 ∧
    (initMultipliers α).lookup "MHz" = some 1000000 ∧
    (initMultipliers α).lookup "GHz" = some 1000000000 := by
  have hf : get_actual_frequency s = .ok (s.frequency * mult) := by
    unfold get_actual_frequency; rw [hm]
  refine ⟨hf, ?_, rfl, rfl, rfl, rfl⟩
  unfold update_field_vectors
  rw [hf, hc]
  simp [List.map_map, Function.comp_def]

/-- Witness for C1 at a concrete rational state (synthetic amplitude
`1/10 + (3 − 1/10)·|sin 0| = 1/10`). -/
theorem field_update_formula_witness :
    wState.freq_multipliers.lookup wState.freq_unit = some 1 ∧
    get_current_amplitude qOps wState = .ok (1 / 10, wState) ∧
    (get_actual_frequency wState = .ok (wState.frequency * 1) ∧
     update_field_vectors qOps wState = .ok { wState with
       vectors := wState.field_points.map
         (fieldVector qOps (1 / 10) (wState.frequency * 1) wState.t),
       intensities := wState.field_points.map
         (fun p =>
           norm3 qOps (fieldVector qOps (1 / 10) (wState.frequency * 1) wState.t p)) } ∧
     (initMultipliers ℚ).lookup "Hz" = some 1 ∧
     (initMultipliers ℚ).lookup "kHz" = some 1000 ∧
     (initMultipliers ℚ).lookup "MHz" = some 1000000 ∧
     (initMultipliers ℚ).lookup "GHz" = some 1000000000) := by
  have hm : wState.freq_multipliers.lookup wState.freq_unit = some 1 := by decide
  have hf : get_actual_frequency wState = .ok (wState.frequency * 1) := by
    unfold get_actual_frequency; rw [hm]
  have hc : get_current_amplitude qOps wState = .ok (1 / 10, wState) := by
    unfold get_current_amplitude
    rw [if_neg (by decide), hf]
    norm_num [qOps, wState]
  exact ⟨hm, hc, field_update_formula qOps wState wState 1 (1 / 10) hm hc⟩

/-! ### C3 -/

/-- Every `getD` read of a list whose members lie in `[0,1]` lies in `[0,1]`
(the default `0` included). -/
theorem getD_bounds {α : Type} [LinearOrderedField α] {env : List α}
    (hb : ∀ x ∈ env, 0 ≤ x ∧ x ≤ 1) (n : Nat) :
    0 ≤ env.getD n 0 ∧ env.getD n 0 ≤ 1 := by
  induction env generalizing n with
  | nil => simp [List.getD]
  | cons y ys ih =>
    cases n with
    | zero => simpa using hb y (List.mem_cons_self y ys)
    | succ m => simpa using ih (fun x hx => hb x (List.mem_cons_of_mem _ hx)) m

/-- Scaling a value of `[0,1]` into `[lo, hi]` by `lo + (hi − lo)·x`. -/
theorem scale_bounds {α : Type} [LinearOrderedField α] {lo hi x : α}
    (hmm : lo ≤ hi) (hx0 : 0 ≤ x) (hx1 : x ≤ 1) :
    lo ≤ lo + (hi - lo) * x ∧ lo + (hi - lo) * x ≤ hi := by
  constructor <;> nlinarith

/-- C3: with `min_current ≤ max_current`, the amplitude returned by
`get_current_amplitude` lies in `[min_current, max_current]`: in synthetic
mode (no envelope loaded) it equals
`min_current + (max_current − min_current)·|sin(2π·actual_frequency·t)|` and
is in range for every `t` and every actual frequency; in envelope mode it is
in range provided every envelope sample is in `[0,1]`. -/
theorem amplitude_in_range (ops : NumOps ℝ) (s s1 : SimState ℝ) (a : ℝ)
    (hsin : ops.sin = Real.sin)
    (hmm : s.min_current ≤ s.max_current)
    (henv : ∀ env, s.audio_envelope = some env → ∀ x ∈ env, 0 ≤ x ∧ x ≤ 1)
    (h : get_current_amplitude ops s = .ok (a, s1)) :
    s.min_current ≤ a ∧ a ≤ s.max_current := by
  unfold get_current_amplitude at h
  split at h
  · rename_i hcond
    obtain ⟨env, henveq⟩ := Option.isSome_iff_exists.mp hcond.1
    simp only [Except.ok.injEq, Prod.mk.injEq] at h
    obtain ⟨ha, -⟩ := h
    subst ha
    simp only [henveq, Option.getD_some]
    have hb := getD_bounds (henv env henveq)
      (min s.audio_envelope_idx (s.audio_envelope_len - 1))
    exact scale_bounds hmm hb.1 hb.2
  · cases hf : get_actual_frequency s with
    | error e => rw [hf] at h; exact absurd h (by simp)
    | ok af =>
      rw [hf] at h
      simp only [Except.ok.injEq, Prod.mk.injEq] at h
      obtain ⟨ha, -⟩ := h
      subst ha
      have h0 : (0 : ℝ) ≤ |ops.sin (2 * ops.pi * af * s.t)| := abs_nonneg _
      have h1 : |ops.sin (2 * ops.pi * af * s.t)| ≤ 1 := by
        rw [hsin]; exact Real.abs_sin_le_one _
      exact scale_bounds hmm h0 h1

/-- An envelope-mode state fixture: `min_current = lo`, `max_current = hi`,
loaded envelope `env` with cursor `idx`, stored length `len`, repeat `rep`. -/
def envState {α : Type} [LinearOrderedField α] (lo hi : α) (env : List α)
    (idx len : Nat) (rep : Bool) : SimState α where
  antenna_length := 1
  antenna_radius := 1
  current_amplitude := 1
  min_current := lo
  max_current := hi
  frequency := 1
  freq_unit := "Hz"
  antenna_type := "Dipole"
  freq_multipliers := initMultipliers α
  antenna_types := ["Dipole", "Monopole", "Loop", "Yagi"]
  time_step := 1
  t := 0
  field_points := []
  vectors := []
  intensities := []
  audio_envelope := some env
  audio_envelope_idx := idx
  audio_envelope_len := len
  audio_envelope_repeat := rep

/-- Witness for C3 at a concrete real envelope-mode state. -/
theorem amplitude_in_range_witness :
    ((⟨Real.sin, id, fun a _ => a, id, 0⟩ : NumOps ℝ).sin = Real.sin) ∧
    ((envState (0 : ℝ) 1 [1] 0 1 true).min_current
      ≤ (envState (0 : ℝ) 1 [1] 0 1 true).max_current) ∧
    (∀ env, (envState (0 : ℝ) 1 [1] 0 1 true).audio_envelope = some env →
      ∀ x ∈ env, 0 ≤ x ∧ x ≤ 1) ∧
    (get_current_amplitude (⟨Real.sin, id, fun a _ => a, id, 0⟩ : NumOps ℝ)
        (envState (0 : ℝ) 1 [1] 0 1 true)
      = .ok (1, envState (0 : ℝ) 1 [1] 0 1 true)) ∧
    ((envState (0 : ℝ) 1 [1] 0 1 true).min_current ≤ 1
      ∧ (1 : ℝ) ≤ (envState (0 : ℝ) 1 [1] 0 1 true).max_current) := by
  have hmm : (envState (0 : ℝ) 1 [1] 0 1 true).min_current
      ≤ (envState (0 : ℝ) 1 [1] 0 1 true).max_current := by norm_num [envState]
  have henv : ∀ env, (envState (0 : ℝ) 1 [1] 0 1 true).audio_envelope = some env →
      ∀ x ∈ env, 0 ≤ x ∧ x ≤ 1 := by
    intro env he x hx
    simp only [envState, Option.some.injEq] at he
    subst he
    simp only [List.mem_singleton] at hx
    subst hx
    norm_num
  have hc : get_current_amplitude (⟨Real.sin, id, fun a _ => a, id, 0⟩ : NumOps ℝ)
      (envState (0 : ℝ) 1 [1] 0 1 true)
      = .ok (1, envState (0 : ℝ) 1 [1] 0 1 true) := by
    simp [get_current_amplitude, envState]
  exact ⟨rfl, hmm, henv, hc,
    amplitude_in_range _ _ _ 1 rfl hmm henv hc⟩

/-! ### C4 -/

/-- C4: in envelope mode the cursor advances by exactly one per amplitude
read, consuming indices in order from 0: a read at cursor `i < length` yields
the amplitude derived from sample `i` and moves the cursor to `i+1` (wrapping
to 0 on overrun with repeat, clamping to `length−1` without); a length-3
envelope with repeat consumes indices 0,1,2,0 on four successive calls; a
length-4 envelope without repeat reaches the exhausted cursor `3` after 4
calls and every subsequent call returns the 4th sample's derived amplitude
with the state unchanged. -/
theorem envelope_cursor_advance {α : Type} [LinearOrderedField α]
    (ops : NumOps α) (s : SimState α) (env : List α)
    (lo hi a b c e1 e2 e3 e4 : α) :
    (s.audio_envelope = some env → s.audio_envelope_len = env.length →
      s.audio_envelope_idx < env.length →
      get_current_amplitude ops s = .ok
        (s.min_current + (s.max_current - s.min_current) *
            env.getD s.audio_envelope_idx 0,
         { s with audio_envelope_idx :=
            if env.length ≤ s.audio_envelope_idx + 1 then
              if s.audio_envelope_repeat then 0 else env.length - 1
            else s.audio_envelope_idx + 1 })) ∧
    (ampCalls ops 4 (envState lo hi [a, b, c] 0 3 true) =
      ([lo + (hi - lo) * a, lo + (hi - lo) * b, lo + (hi - lo) * c,
        lo + (hi - lo) * a],
       envState lo hi [a, b, c] 1 3 true)) ∧
    (ampCalls ops 4 (envState lo hi [e1, e2, e3, e4] 0 4 false) =
      ([lo + (hi - lo) * e1, lo + (hi - lo) * e2, lo + (hi - lo) * e3,
        lo + (hi - lo) * e4],
       envState lo hi [e1, e2, e3, e4] 3 4 false)) ∧
    (∀ n, ampCalls ops n (envState lo hi [e1, e2, e3, e4] 3 4 false) =
      (List.replicate n (lo + (hi - lo) * e4),
       envState lo hi [e1, e2, e3, e4] 3 4 false)) := by
  have g0 : get_current_amplitude ops (envState lo hi [a, b, c] 0 3 true)
      = .ok (lo + (hi - lo) * a, envState lo hi [a, b, c] 1 3 true) := by
    simp [get_current_amplitude, envState, Nat.min_def]
  have g1 : get_current_amplitude ops (envState lo hi [a, b, c] 1 3 true)
      = .ok (lo + (hi - lo) * b, envState lo hi [a, b, c] 2 3 true) := by
    simp [get_current_amplitude, envState, Nat.min_def]
  have g2 : get_current_amplitude ops (envState lo hi [a, b, c] 2 3 true)
      = .ok (lo + (hi - lo) * c, envState lo hi [a, b, c] 0 3 true) := by
    simp [get_current_amplitude, envState, Nat.min_def]
  have k0 : get_current_amplitude ops (envState lo hi [e1, e2, e3, e4] 0 4 false)
      = .ok (lo + (hi - lo) * e1, envState lo hi [e1, e2, e3, e4] 1 4 false) := by
    simp [get_current_amplitude, envState, Nat.min_def]
  have k1 : get_current_amplitude ops (envState lo hi [e1, e2, e3, e4] 1 4 false)
      = .ok (lo + (hi - lo) * e2, envState lo hi [e1, e2, e3, e4] 2 4 false) := by
    simp [get_current_amplitude, envState, Nat.min_def]
  have k2 : get_current_amplitude ops (envState lo hi [e1, e2, e3, e4] 2 4 false)
      = .ok (lo + (hi - lo) * e3, envState lo hi [e1, e2, e3, e4] 3 4 false) := by
    simp [get_current_amplitude, envState, Nat.min_def]
  have k3 : get_current_amplitude ops (envState lo hi [e1, e2, e3, e4] 3 4 false)
      = .ok (lo + (hi - lo) * e4, envState lo hi [e1, e2, e3, e4] 3 4 false) := by
    simp [get_current_amplitude, envState, Nat.min_def]
  refine ⟨?_, ?_, ?_, ?_⟩
  · intro h1 h2 h3
    unfold get_current_amplitude
    rw [if_pos ⟨by rw [h1]; rfl, by rw [h2]; omega⟩]
    simp only [h1, h2, Option.getD_some]
    rw [Nat.min_eq_left (by omega)]
  · simp [ampCalls, g0, g1, g2]
  · simp [ampCalls, k0, k1, k2, k3]
  · intro n
    induction n with
    | zero => simp [ampCalls]
    | succ m ih => simp [ampCalls, k3, ih, List.replicate_succ]

/-- Witness for C4: the general advance clause at a concrete rational
one-sample envelope state. -/
theorem envelope_cursor_advance_witness :
    (envState (0 : ℚ) 1 [(1 : ℚ) / 2] 0 1 true).audio_envelope
        = some [(1 : ℚ) / 2] ∧
    (envState (0 : ℚ) 1 [(1 : ℚ) / 2] 0 1 true).audio_envelope_len
        = [(1 : ℚ) / 2].length ∧
    (envState (0 : ℚ) 1 [(1 : ℚ) / 2] 0 1 true).audio_envelope_idx
        < [(1 : ℚ) / 2].length ∧
    get_current_amplitude qOps (envState (0 : ℚ) 1 [(1 : ℚ) / 2] 0 1 true)
      = .ok ((0 : ℚ) + (1 - 0) * ((1 : ℚ) / 2),
             envState (0 : ℚ) 1 [(1 : ℚ) / 2] 0 1 true) := by
  refine ⟨rfl, rfl, by decide, ?_⟩
  have h := (envelope_cursor_advance qOps
    (envState (0 : ℚ) 1 [(1 : ℚ) / 2] 0 1 true) [(1 : ℚ) / 2]
    0 0 0 0 0 0 0 0 0).1 rfl rfl (by decide)
  simpa [envState] using h

/-! ### C5 -/

/-- Length of a `flatMap` whose pieces all have length `m`. -/
theorem length_flatMap_const {β γ : Type} (l : List β) (f : β → List γ)
    (m : Nat) (h : ∀ x ∈ l, (f x).length = m) :
    (l.flatMap f).length = l.length * m := by
  induction l with
  | nil => simp
  | cons x xs ih =>
    simp only [List.flatMap_cons, List.length_append, List.length_cons]
    rw [h x (List.mem_cons_self x xs),
        ih (fun y hy => h y (List.mem_cons_of_mem _ hy))]
    ring

/-- Reading an appended list past the first part, without subtraction. -/
theorem getD_append_offset {γ : Type} (l l' : List γ) (d : γ) (n : Nat) :
    (l ++ l').getD (l.length + n) d = l'.getD n d := by
  induction l with
  | nil => simp
  | cons x xs ih =>
    simp only [List.cons_append, List.length_cons]
    rw [Nat.add_right_comm]
    simpa using ih

/-- Positional reading of a `flatMap` with uniform piece length `m`: position
`i·m + j` reads element `j` of piece `i`. -/
theorem getD_flatMap_uniform {β γ : Type} (l : List β) (f : β → List γ)
    (m : Nat) (dβ : β) (dγ : γ) (h : ∀ x ∈ l, (f x).length = m) (i j : Nat)
    (hi : i < l.length) (hj : j < m) :
    (l.flatMap f).getD (i * m + j) dγ = (f (l.getD i dβ)).getD j dγ := by
  induction l generalizing i with
  | nil => simp at hi
  | cons x xs ih =>
    cases i with
    | zero =>
      simp only [List.flatMap_cons, List.getD_cons_zero, Nat.zero_mul,
        Nat.zero_add]
      exact List.getD_append _ _ _ _
        (by rw [h x (List.mem_cons_self x xs)]; exact hj)
    | succ i' =>
      have hx : (f x).length = m := h x (List.mem_cons_self x xs)
      simp only [List.flatMap_cons, List.getD_cons_succ]
      have harith : (i' + 1) * m + j = (f x).length + (i' * m + j) := by
        rw [hx]; ring
      rw [harith, getD_append_offset]
      exact ih (fun y hy => h y (List.mem_cons_of_mem _ hy)) i'
        (by simpa using hi)

/-- Reading through `map`: `getD` at an in-bounds position. -/
theorem getD_map_lt {β γ : Type} (l : List β) (f : β → γ) (dβ : β) (dγ : γ)
    (n : Nat) (hn : n < l.length) :
    (l.map f).getD n dγ = f (l.getD n dβ) := by
  induction l generalizing n with
  | nil => simp at hn
  | cons x xs ih =>
    cases n with
    | zero => simp
    | succ m => simpa using ih m (by simpa using hn)

/-- The sample count of `np.linspace a b n` is exactly `n`. -/
theorem linspace_length {α : Type} [LinearOrderedField α] (a b : α) (n : Nat) :
    (linspace a b n).length = n := by
  unfold linspace
  split
  · rename_i h; simp [h]
  · rw [List.length_map, List.length_range]

/-- The grid has `|radii| · |polar| · |azimuths|` points. -/
theorem generate_length {α : Type} [LinearOrderedField α] (ops : NumOps α)
    (rs ts ps : List α) :
    (generate_field_points ops rs ts ps).length
      = rs.length * ts.length * ps.length := by
  unfold generate_field_points
  rw [length_flatMap_const _ _ (ts.length * ps.length) (fun x _ =>
    length_flatMap_const _ _ ps.length (fun y _ => by simp))]
  ring

/-- C5: grid generation iterates radius outermost, polar angle middle,
azimuth innermost, emitting `(r·sinθ·cosφ, r·sinθ·sinφ, r·cosθ)` for each
triple: the point at position `i·(|θ|·|φ|) + j·|φ| + k` is the transform of
`(radii[i], polar[j], azimuth[k])`; the grid has exactly
`|radii| × |polar| × |azimuths|` points, and the default configuration of 10
radii in `[0.2, 2.0]`, 15 polar angles in `[0, π]` and 30 azimuths in
`[0, 2π]` yields 4500 points. -/
theorem grid_generation (ops : NumOps ℝ) (rs ts ps : List ℝ) (i j k : Nat)
    (hi : i < rs.length) (hj : j < ts.length) (hk : k < ps.length) :
    (generate_field_points ops rs ts ps).length
        = rs.length * ts.length * ps.length ∧
    (generate_field_points ops rs ts ps).getD
        (i * (ts.length * ps.length) + j * ps.length + k) (0, 0, 0)
      = (rs.getD i 0 * ops.sin (ts.getD j 0) * ops.cos (ps.getD k 0),
         rs.getD i 0 * ops.sin (ts.getD j 0) * ops.sin (ps.getD k 0),
         rs.getD i 0 * ops.cos (ts.getD j 0)) ∧
    (generate_field_points ops (linspace (0.2 : ℝ) 2 10)
        (linspace 0 Real.pi 15) (linspace 0 (2 * Real.pi) 30)).length
      = 4500 := by
  refine ⟨generate_length ops rs ts ps, ?_, ?_⟩
  · have hin : ∀ x ∈ rs,
        ((fun ri => ts.flatMap (fun ti => ps.map (fun pi =>
          (ri * ops.sin ti * ops.cos pi, ri * ops.sin ti * ops.sin pi,
           ri * ops.cos ti)))) x).length = ts.length * ps.length := fun x _ =>
      length_flatMap_const _ _ ps.length (fun y _ => by simp)
    have hrest : j * ps.length + k < ts.length * ps.length := by
      have h1 : j * ps.length + k < (j + 1) * ps.length := by
        rw [Nat.succ_mul]; omega
      exact lt_of_lt_of_le h1 (Nat.mul_le_mul_right _ hj)
    unfold generate_field_points
    rw [add_assoc,
        getD_flatMap_uniform rs _ (ts.length * ps.length) 0 (0, 0, 0) hin
          i (j * ps.length + k) hi hrest,
        getD_flatMap_uniform ts _ ps.length 0 (0, 0, 0)
          (fun y _ => by simp) j k hj hk,
        getD_map_lt ps _ 0 (0, 0, 0) k hk]
  · rw [generate_length, linspace_length, linspace_length, linspace_length]

/-- Witness for C5 at a concrete grid. -/
theorem grid_generation_witness :
    (1 < [(1 : ℝ), 2].length ∧ 0 < [(5 : ℝ)].length ∧ 0 < [(7 : ℝ)].length) ∧
    ((generate_field_points (⟨Real.sin, Real.cos, fun a _ => a, Real.sqrt,
          Real.pi⟩ : NumOps ℝ) [(1 : ℝ), 2] [(5 : ℝ)] [(7 : ℝ)]).length
        = [(1 : ℝ), 2].length * [(5 : ℝ)].length * [(7 : ℝ)].length ∧
     (generate_field_points (⟨Real.sin, Real.cos, fun a _ => a, Real.sqrt,
          Real.pi⟩ : NumOps ℝ) [(1 : ℝ), 2] [(5 : ℝ)] [(7 : ℝ)]).getD
        (1 * ([(5 : ℝ)].length * [(7 : ℝ)].length) + 0 * [(7 : ℝ)].length + 0)
        (0, 0, 0)
      = ([(1 : ℝ), 2].getD 1 0 * Real.sin ([(5 : ℝ)].getD 0 0) *
           Real.cos ([(7 : ℝ)].getD 0 0),
         [(1 : ℝ), 2].getD 1 0 * Real.sin ([(5 : ℝ)].getD 0 0) *
           Real.sin ([(7 : ℝ)].getD 0 0),
         [(1 : ℝ), 2].getD 1 0 * Real.cos ([(5 : ℝ)].getD 0 0)) ∧
     (generate_field_points (⟨Real.sin, Real.cos, fun a _ => a, Real.sqrt,
          Real.pi⟩ : NumOps ℝ) (linspace (0.2 : ℝ) 2 10)
        (linspace 0 Real.pi 15) (linspace 0 (2 * Real.pi) 30)).length
      = 4500) :=
  ⟨⟨by norm_num, by norm_num, by norm_num⟩,
   grid_generation _ [(1 : ℝ), 2] [(5 : ℝ)] [(7 : ℝ)] 1 0 0
     (by norm_num) (by norm_num) (by norm_num)⟩

/-! ### C2 -/

/-- An unrecognized unit makes the field update raise the dict `KeyError`
before writing any field data. -/
theorem ufv_err_of_lookup_none {α : Type} [LinearOrderedField α]
    (ops : NumOps α) (s : SimState α)
    (h : s.freq_multipliers.lookup s.freq_unit = none) :
    update_field_vectors ops s = .error (.keyError s.freq_unit) := by
  unfold update_field_vectors get_actual_frequency
  rw [h]

/-- Stepping with `update_simulation` always advances `t` by one `time_step` of the
post-parameter state, error or not. -/
theorem step_t_advance {α : Type} [LinearOrderedField α] (ops : NumOps α)
    (s : SimState α) (ps : List (String × PyValue α)) :
    (update_simulation ops s ps).1.t
      = (applyParams s ps).t + (applyParams s ps).time_step := by
  unfold update_simulation
  cases h : update_field_vectors ops { applyParams s ps with
      t := (applyParams s ps).t + (applyParams s ps).time_step } with
  | ok s3 =>
    simp only [h]
    have hc := ufv_state_char ops _ _ h
    rw [hc]
  | error e => simp only [h]

/-- With a recognized `freq_unit`, `update_simulation` succeeds — no
parameter validation of any kind happens. -/
theorem step_ok_of_lookup {α : Type} [LinearOrderedField α] (ops : NumOps α)
    (s : SimState α) (ps : List (String × PyValue α)) (m : α)
    (hm : (applyParams s ps).freq_multipliers.lookup
        (applyParams s ps).freq_unit = some m) :
    isOkE (update_simulation ops s ps).2 = true := by
  have hm2 : ({ applyParams s ps with
      t := (applyParams s ps).t + (applyParams s ps).time_step
        : SimState α }).freq_multipliers.lookup
      ({ applyParams s ps with
      t := (applyParams s ps).t + (applyParams s ps).time_step
        : SimState α }).freq_unit = some m := hm
  have hok := ufv_ok_of_lookup ops _ m hm2
  unfold update_simulation
  cases h : update_field_vectors ops { applyParams s ps with
      t := (applyParams s ps).t + (applyParams s ps).time_step } with
  | ok s3 => simp only [h]; rfl
  | error e => rw [h] at hok; exact absurd hok (by simp [isOkE])

/-- With an unrecognized `freq_unit`, `update_simulation` fails with the
`KeyError` but the previous field frame is retained (only `t` has moved). -/
theorem step_err_of_lookup_none {α : Type} [LinearOrderedField α]
    (ops : NumOps α) (s : SimState α) (ps : List (String × PyValue α))
    (hnone : (applyParams s ps).freq_multipliers.lookup
        (applyParams s ps).freq_unit = none) :
    isOkE (update_simulation ops s ps).2 = false
      ∧ (update_simulation ops s ps).1.vectors = (applyParams s ps).vectors
      ∧ (update_simulation ops s ps).1.intensities
          = (applyParams s ps).intensities := by
  have hnone2 : ({ applyParams s ps with
      t := (applyParams s ps).t + (applyParams s ps).time_step
        : SimState α }).freq_multipliers.lookup
      ({ applyParams s ps with
      t := (applyParams s ps).t + (applyParams s ps).time_step
        : SimState α }).freq_unit = none := hnone
  have herr := ufv_err_of_lookup_none ops _ hnone2
  unfold update_simulation
  simp only [herr]
  simp [isOkE]

/-- C2 (amended): `update_simulation` performs no parameter validation.
Elapsed time always advances by one `time_step` — whatever `min_current`,
`max_current` and `antenna_length` are; whenever `freq_unit` resolves in
`freq_multipliers` the step succeeds (no `InvalidParameter` error exists);
only an unrecognized `freq_unit` makes the step fail (an unhandled dict
`KeyError`), and even then elapsed time has already advanced, while the
previous field frame (vectors and intensities) is left unchanged. -/
theorem step_no_validation {α : Type} [LinearOrderedField α] (ops : NumOps α)
    (s : SimState α) (ps : List (String × PyValue α)) :
    ((update_simulation ops s ps).1.t
        = (applyParams s ps).t + (applyParams s ps).time_step) ∧
    (∀ m, (applyParams s ps).freq_multipliers.lookup
        (applyParams s ps).freq_unit = some m →
      isOkE (update_simulation ops s ps).2 = true) ∧
    ((applyParams s ps).freq_multipliers.lookup
        (applyParams s ps).freq_unit = none →
      isOkE (update_simulation ops s ps).2 = false
        ∧ (update_simulation ops s ps).1.vectors = (applyParams s ps).vectors
        ∧ (update_simulation ops s ps).1.intensities
            = (applyParams s ps).intensities) :=
  ⟨step_t_advance ops s ps,
   fun m hm => step_ok_of_lookup ops s ps m hm,
   fun hnone => step_err_of_lookup_none ops s ps hnone⟩

/-- Counterexample to C2 as stated: with `min_current = 2 > 1 = max_current`
the step does not fail, and elapsed time does advance (0 → 1/20). -/
theorem step_validation_counterexample :
    ({ wState with min_current := 2, max_current := 1 }).max_current
        < ({ wState with min_current := 2, max_current := 1 }).min_current ∧
    isOkE (update_simulation qOps
        { wState with min_current := 2, max_current := 1 } []).2 = true ∧
    (update_simulation qOps
        { wState with min_current := 2, max_current := 1 } []).1.t = 1 / 20 ∧
    (update_simulation qOps
        { wState with min_current := 2, max_current := 1 } []).1.t
      ≠ ({ wState with min_current := 2, max_current := 1 }).t := by
  refine ⟨by decide, step_ok_of_lookup qOps _ [] 1 (by decide), ?_, ?_⟩
  · rw [step_t_advance]
    norm_num [applyParams, wState]
  · rw [step_t_advance]
    norm_num [applyParams, wState]

/-- Witness for C2's amended statement at the concrete default state. -/
theorem step_no_validation_witness :
    (applyParams wState []).freq_multipliers.lookup
        (applyParams wState []).freq_unit = some 1 ∧
    (update_simulation qOps wState []).1.t
        = (applyParams wState []).t + (applyParams wState []).time_step ∧
    isOkE (update_simulation qOps wState []).2 = true :=
  ⟨by decide, (step_no_validation qOps wState []).1,
   (step_no_validation qOps wState []).2.1 1 (by decide)⟩

/-! ### C6 -/

/-- C6: the step is deterministic — two engines with identical grids,
identical parameter values and keyword sequences, identical elapsed time and
identical amplitude-source internal state (envelope contents, cursor, repeat
flag) produce identical states and identical field frames. -/
theorem step_deterministic {α : Type} [LinearOrderedField α] (ops : NumOps α)
    (s1 s2 : SimState α) (ps1 ps2 : List (String × PyValue α))
    (h0 : s1.antenna_length = s2.antenna_length)
    (h1 : s1.antenna_radius = s2.antenna_radius)
    (h2 : s1.current_amplitude = s2.current_amplitude)
    (h3 : s1.min_current = s2.min_current)
    (h4 : s1.max_current = s2.max_current)
    (h5 : s1.frequency = s2.frequency)
    (h6 : s1.freq_unit = s2.freq_unit)
    (h7 : s1.antenna_type = s2.antenna_type)
    (h8 : s1.freq_multipliers = s2.freq_multipliers)
    (h9 : s1.antenna_types = s2.antenna_types)
    (h10 : s1.time_step = s2.time_step)
    (h11 : s1.t = s2.t)
    (h12 : s1.field_points = s2.field_points)
    (h13 : s1.vectors = s2.vectors)
    (h14 : s1.intensities = s2.intensities)
    (h15 : s1.audio_envelope = s2.audio_envelope)
    (h16 : s1.audio_envelope_idx = s2.audio_envelope_idx)
    (h17 : s1.audio_envelope_len = s2.audio_envelope_len)
    (h18 : s1.audio_envelope_repeat = s2.audio_envelope_repeat)
    (hps : ps1 = ps2) :
    update_simulation ops s1 ps1 = update_simulation ops s2 ps2 := by
  have hs : s1 = s2 := by
    apply SimState.ext <;> assumption
  rw [hs, hps]

/-- Witness for C6 at the concrete default state. -/
theorem step_deterministic_witness :
    (    wState.antenna_length = wState.antenna_length ∧
    wState.antenna_radius = wState.antenna_radius ∧
    wState.current_amplitude = wState.current_amplitude ∧
    wState.min_current = wState.min_current ∧
    wState.max_current = wState.max_current ∧
    wState.frequency = wState.frequency ∧
    wState.freq_unit = wState.freq_unit ∧
    wState.antenna_type = wState.antenna_type ∧
    wState.freq_multipliers = wState.freq_multipliers ∧
    wState.antenna_types = wState.antenna_types ∧
    wState.time_step = wState.time_step ∧
    wState.t = wState.t ∧
    wState.field_points = wState.field_points ∧
    wState.vectors = wState.vectors ∧
    wState.intensities = wState.intensities ∧
    wState.audio_envelope = wState.audio_envelope ∧
    wState.audio_envelope_idx = wState.audio_envelope_idx ∧
    wState.audio_envelope_len = wState.audio_envelope_len ∧
    wState.audio_envelope_repeat = wState.audio_envelope_repeat ∧
    ([] : List (String × PyValue ℚ)) = []) ∧
    update_simulation qOps wState [] = update_simulation qOps wState [] :=
  ⟨by simp,
   step_deterministic qOps wState wState [] []
     rfl rfl rfl rfl rfl rfl rfl rfl rfl rfl rfl rfl rfl rfl rfl rfl rfl rfl
     rfl rfl⟩

/-! ### C8 -/

/-- Stepping with `update_simulation` never changes `time_step`. -/
theorem step_time_step_const {α : Type} [LinearOrderedField α]
    (ops : NumOps α) (s : SimState α) (ps : List (String × PyValue α)) :
    (update_simulation ops s ps).1.time_step
      = (applyParams s ps).time_step := by
  unfold update_simulation
  cases h : update_field_vectors ops { applyParams s ps with
      t := (applyParams s ps).t + (applyParams s ps).time_step } with
  | ok s3 =>
    simp only [h]
    rw [ufv_state_char ops _ _ h]
  | error e => simp only [h]

/-- Running `n` parameterless steps advances `t` by exactly `n` time steps. -/
theorem stepN_t {α : Type} [LinearOrderedField α] (ops : NumOps α) (n : Nat)
    (s : SimState α) :
    (stepN ops n s).t = s.t + n * s.time_step
      ∧ (stepN ops n s).time_step = s.time_step := by
  induction n generalizing s with
  | zero => simp [stepN]
  | succ m ih =>
    unfold stepN
    have e1 : (stepState ops s).t = s.t + s.time_step := by
      unfold stepState; rw [step_t_advance]; rfl
    have e2 : (stepState ops s).time_step = s.time_step := by
      unfold stepState; rw [step_time_step_const]; rfl
    obtain ⟨ih1, ih2⟩ := ih (stepState ops s)
    constructor
    · rw [ih1, e1, e2]; push_cast; ring
    · rw [ih2, e2]

/-- C8: from `elapsed_time = 0`, ten steps with `time_step = 0.05` yield
`elapsed_time = 0.5` within absolute tolerance `1e-9` (each step advances
`t` by exactly one `time_step`; the real-valued model accumulates exactly). -/
theorem ten_steps_elapsed (ops : NumOps ℝ) (s : SimState ℝ)
    (h0 : s.t = 0) (hts : s.time_step = 0.05) :
    |(stepN ops 10 s).t - 0.5| ≤ 1 / 1000000000 := by
  rw [(stepN_t ops 10 s).1, h0, hts]
  norm_num

/-- Witness for C8 at a concrete real state. -/
theorem ten_steps_elapsed_witness :
    ({ envState (0 : ℝ) 1 [] 0 0 true with time_step := 0.05 }).t = 0 ∧
    ({ envState (0 : ℝ) 1 [] 0 0 true with time_step := 0.05 }).time_step
        = 0.05 ∧
    |(stepN (⟨Real.sin, id, fun a _ => a, id, 0⟩ : NumOps ℝ) 10
        { envState (0 : ℝ) 1 [] 0 0 true with time_step := 0.05 }).t - 0.5|
      ≤ 1 / 1000000000 :=
  ⟨rfl, rfl, ten_steps_elapsed _ _ rfl rfl⟩

/-! ### C10 -/

/-- A left fold of `min` is below its initial value. -/
theorem foldl_min_le_init {α : Type} [LinearOrderedField α] (xs : List α)
    (a : α) : xs.foldl min a ≤ a := by
  induction xs generalizing a with
  | nil => simp
  | cons y ys ih =>
    simp only [List.foldl_cons]
    exact le_trans (ih (min a y)) (min_le_left a y)

/-- A left fold of `min` is below every member. -/
theorem foldl_min_le_mem {α : Type} [LinearOrderedField α] (xs : List α)
    (a x : α) (hx : x ∈ xs) : xs.foldl min a ≤ x := by
  induction xs generalizing a with
  | nil => simp at hx
  | cons y ys ih =>
    simp only [List.foldl_cons]
    rcases List.mem_cons.mp hx with h | h
    · subst h
      exact le_trans (foldl_min_le_init ys (min a x)) (min_le_right a x)
    · exact ih (min a y) h

/-- A left fold of `max` is above its initial value. -/
theorem init_le_foldl_max {α : Type} [LinearOrderedField α] (xs : List α)
    (a : α) : a ≤ xs.foldl max a := by
  induction xs generalizing a with
  | nil => simp
  | cons y ys ih =>
    simp only [List.foldl_cons]
    exact le_trans (le_max_left a y) (ih (max a y))

/-- A left fold of `max` is above every member. -/
theorem mem_le_foldl_max {α : Type} [LinearOrderedField α] (xs : List α)
    (a x : α) (hx : x ∈ xs) : x ≤ xs.foldl max a := by
  induction xs generalizing a with
  | nil => simp at hx
  | cons y ys ih =>
    simp only [List.foldl_cons]
    rcases List.mem_cons.mp hx with h | h
    · subst h
      exact le_trans (le_max_right a x) (init_le_foldl_max ys (max a x))
    · exact ih (max a y) h

/-- The `np.min` fold bounds every sample from below. -/
theorem listMin_le {α : Type} [LinearOrderedField α] (l : List α) (x : α)
    (hx : x ∈ l) : listMin l ≤ x := by
  cases l with
  | nil => simp at hx
  | cons y ys =>
    unfold listMin
    rcases List.mem_cons.mp hx with h | h
    · subst h; exact foldl_min_le_init ys x
    · exact foldl_min_le_mem ys y x h

/-- The `np.max` fold bounds every sample from above. -/
theorem le_listMax {α : Type} [LinearOrderedField α] (l : List α) (x : α)
    (hx : x ∈ l) : x ≤ listMax l := by
  cases l with
  | nil => simp at hx
  | cons y ys =>
    unfold listMax
    rcases List.mem_cons.mp hx with h | h
    · subst h; exact init_le_foldl_max ys x
    · exact mem_le_foldl_max ys y x h

/-- C10: for every nonempty envelope the normalization divisor
`ptp + 1e-8 = max − min + 1e-8` is strictly positive — a constant envelope
(`ptp = 0`) included — and every normalized sample lies in `[0, 1]`,
establishing the sample-range precondition of the amplitude-range
property. -/
theorem normalization_bounds {α : Type} [LinearOrderedField α] (l : List α)
    (h : l ≠ []) :
    0 < listMax l - listMin l + 1 / 100000000 ∧
    ∀ y ∈ normalizeEnv l, 0 ≤ y ∧ y ≤ 1 := by
  obtain ⟨x0, hx0⟩ : ∃ x, x ∈ l := by
    cases l with
    | nil => exact absurd rfl h
    | cons y ys => exact ⟨y, List.mem_cons_self y ys⟩
  have hminmax : listMin l ≤ listMax l :=
    le_trans (listMin_le l x0 hx0) (le_listMax l x0 hx0)
  have heps : (0 : α) < 1 / 100000000 := by norm_num
  have hpos : 0 < listMax l - listMin l + 1 / 100000000 := by linarith
  refine ⟨hpos, ?_⟩
  intro y hy
  obtain ⟨x, hx, rfl⟩ := List.mem_map.mp hy
  constructor
  · exact div_nonneg (by linarith [listMin_le l x hx]) (le_of_lt hpos)
  · rw [div_le_one hpos]
    linarith [le_listMax l x hx]

/-- Witness for C10 on a concrete two-sample envelope. -/
theorem normalization_bounds_witness :
    ([(1 : ℚ) / 2, 2] ≠ []) ∧
    (0 < listMax [(1 : ℚ) / 2, 2] - listMin [(1 : ℚ) / 2, 2] + 1 / 100000000 ∧
     ∀ y ∈ normalizeEnv [(1 : ℚ) / 2, 2], 0 ≤ y ∧ y ≤ 1) :=
  ⟨by simp, normalization_bounds [(1 : ℚ) / 2, 2] (by simp)⟩

/-! ### C7 -/

/-- The state `load_audio_envelope` leaves behind on a successful load of the
raw envelope `envRaw`: envelope replaced by the normalized samples, cursor
reset to 0, stored length set. -/
def loadedState {α : Type} [LinearOrderedField α] (s : SimState α)
    (envRaw : List α) : SimState α :=
  { s with
    audio_envelope := some (normalizeEnv envRaw)
    audio_envelope_idx := 0
    audio_envelope_len := (normalizeEnv envRaw).length }

/-- C7 (amended): loading a nonempty envelope, from any prior state,
unconditionally replaces the previous envelope with the normalized samples,
resets the cursor to 0, raises no error and puts the source in envelope-driven
mode; the result is `Active` in the spec's sense provided the repeat flag is
set or the new envelope has at least two samples (a one-sample envelope with
`repeat = false` begins in the exhausted configuration). -/
theorem load_envelope_resets {α : Type} [LinearOrderedField α]
    (s : SimState α) (envRaw : List α) (h : envRaw ≠ []) :
    load_audio_envelope s envRaw = some (loadedState s envRaw) ∧
    (loadedState s envRaw).audio_envelope_idx = 0 ∧
    (loadedState s envRaw).audio_envelope_len = envRaw.length ∧
    0 < envRaw.length ∧
    (s.audio_envelope_repeat = true ∨ 2 ≤ envRaw.length →
      specActive (loadedState s envRaw)) := by
  cases envRaw with
  | nil => exact absurd rfl h
  | cons x xs =>
    refine ⟨rfl, rfl, by simp [loadedState, normalizeEnv], by simp, ?_⟩
    intro hcase
    unfold specActive
    rcases hcase with hr | hl
    · right; exact hr
    · left
      show 0 < (normalizeEnv (x :: xs)).length - 1
      simp only [normalizeEnv, List.length_map, List.length_cons]
      simp only [List.length_cons] at hl
      omega

/-- Witness for C7 on a concrete two-sample envelope. -/
theorem load_envelope_resets_witness :
    ([(1 : ℚ) / 2, 1] ≠ []) ∧
    (load_audio_envelope wState [(1 : ℚ) / 2, 1]
        = some (loadedState wState [(1 : ℚ) / 2, 1]) ∧
     (loadedState wState [(1 : ℚ) / 2, 1]).audio_envelope_idx = 0 ∧
     (loadedState wState [(1 : ℚ) / 2, 1]).audio_envelope_len
        = [(1 : ℚ) / 2, 1].length ∧
     0 < [(1 : ℚ) / 2, 1].length ∧
     (wState.audio_envelope_repeat = true ∨ 2 ≤ [(1 : ℚ) / 2, 1].length →
       specActive (loadedState wState [(1 : ℚ) / 2, 1]))) :=
  ⟨by simp, load_envelope_resets wState [(1 : ℚ) / 2, 1] (by simp)⟩

/-- Counterexample to C7 as stated: loading a one-sample envelope into a
state whose repeat flag is off succeeds, but the resulting source is not in
the spec's `Active` state (cursor 0 = length − 1 and no repeat). -/
theorem load_active_counterexample :
    load_audio_envelope { wState with audio_envelope_repeat := false }
        [(1 : ℚ) / 2]
      = some (loadedState { wState with audio_envelope_repeat := false }
          [(1 : ℚ) / 2]) ∧
    ¬ specActive (loadedState { wState with audio_envelope_repeat := false }
          [(1 : ℚ) / 2]) := by
  constructor
  · rfl
  · intro hact
    rcases hact with hlt | hrep
    · simp [loadedState, normalizeEnv] at hlt
    · simp [loadedState] at hrep

/-! ### C9 -/

/-- The name test `parseAttr` only accepts the Python name of the attribute it returns. -/
theorem parseAttr_name {k : String} {a : Attr} (h : parseAttr k = some a) :
    k = attrName a := by
  unfold parseAttr at h
  have := List.find?_some h
  simp only [decide_eq_true_eq] at this
  exact this.symm

set_option maxHeartbeats 1000000 in
/-- Assigning one attribute leaves every other attribute unchanged. -/
theorem getF_setF_ne {α : Type} (s : SimState α) (a b : Attr) (v : PyValue α)
    (h : a ≠ b) : getF (setF s a v) b = getF s b := by
  cases a <;> cases b <;> simp_all [getF, setF]

/-- A keyword naming no attribute is silently ignored. -/
theorem setAttr_unknown {α : Type} (s : SimState α) (k : String)
    (v : PyValue α) (h : parseAttr k = none) : setAttr s k v = s := by
  unfold setAttr
  rw [h]

/-- Assigning by one name leaves every other name's attribute unchanged. -/
theorem getAttr_setAttr_ne {α : Type} (s : SimState α) (k name : String)
    (v : PyValue α) (h : k ≠ name) :
    getAttr (setAttr s k v) name = getAttr s name := by
  unfold setAttr getAttr
  cases hk : parseAttr k with
  | none => rfl
  | some a =>
    cases hn : parseAttr name with
    | none => simp
    | some b =>
      have hab : a ≠ b := fun he =>
        h (by rw [parseAttr_name hk, parseAttr_name hn, he])
      simp [getF_setF_ne s a b v hab]

/-- C9: the parameter-update step of `update_simulation` assigns only
keywords whose names match an existing attribute: a parameter list whose keys
match no attribute leaves the engine state unchanged, and every attribute not
named by any supplied key — elapsed time and the envelope cursor included —
keeps its value; `update_simulation` factors through this parameter step. -/
theorem param_update_frame {α : Type} [LinearOrderedField α] (ops : NumOps α)
    (s : SimState α) (ps : List (String × PyValue α)) (k : String) :
    ((∀ kv ∈ ps, parseAttr kv.1 = none) → applyParams s ps = s) ∧
    ((∀ kv ∈ ps, kv.1 ≠ k) →
      getAttr (applyParams s ps) k = getAttr s k) ∧
    update_simulation ops s ps = update_simulation ops (applyParams s ps) [] := by
  refine ⟨?_, ?_, rfl⟩
  · induction ps generalizing s with
    | nil => intro _; rfl
    | cons kv rest ih =>
      intro h
      simp only [applyParams, List.foldl_cons]
      rw [setAttr_unknown s kv.1 kv.2 (h kv (List.mem_cons_self kv rest))]
      exact ih s (fun x hx => h x (List.mem_cons_of_mem _ hx))
  · induction ps generalizing s with
    | nil => intro _; rfl
    | cons kv rest ih =>
      intro h
      simp only [applyParams, List.foldl_cons]
      have hrest := ih (setAttr s kv.1 kv.2)
        (fun x hx => h x (List.mem_cons_of_mem _ hx))
      exact hrest.trans
        (getAttr_setAttr_ne s kv.1 k kv.2 (h kv (List.mem_cons_self kv rest)))

/-- Witness for C9: an unrecognized keyword at the concrete default state. -/
theorem param_update_frame_witness :
    (∀ kv ∈ [("no_such_attr", PyValue.num (5 : ℚ))], parseAttr kv.1 = none) ∧
    (∀ kv ∈ [("no_such_attr", PyValue.num (5 : ℚ))], kv.1 ≠ "t") ∧
    applyParams wState [("no_such_attr", PyValue.num (5 : ℚ))] = wState ∧
    getAttr (applyParams wState [("no_such_attr", PyValue.num (5 : ℚ))]) "t"
      = getAttr wState "t" := by
  have h1 : ∀ kv ∈ [("no_such_attr", PyValue.num (5 : ℚ))],
      parseAttr kv.1 = none := by decide
  have h2 : ∀ kv ∈ [("no_such_attr", PyValue.num (5 : ℚ))], kv.1 ≠ "t" := by
    decide
  exact ⟨h1, h2,
    (param_update_frame qOps wState [("no_such_attr", PyValue.num (5 : ℚ))]
      "t").1 h1,
    (param_update_frame qOps wState [("no_such_attr", PyValue.num (5 : ℚ))]
      "t").2.1 h2⟩
